import Mathlib

/-!
Shallow embedding of `semaphore-mtb` (Go): `prover/proving_system.go` and
`server/server.go`. Field elements and `big.Int` values are modelled as `Nat`
(the program only ever handles non-negative values); byte strings are
`List Nat` with entries below 256; fallible Go functions returning `error`
become `Except`/`Option`-valued Lean functions. The gnark proving backend
(`frontend.NewWitness`, `groth16.Prove`, `groth16.Verify`) and the keccak256
hash are external collaborators, so they appear as explicit function
parameters of the embedded operations.
-/

namespace Mbu

/-- `prover.Parameters` (proving_system.go lines 18-25). `InputHash`,
`PreRoot`, `PostRoot` and the `IdComms`/`MerkleProofs` entries are `big.Int`
field elements, modelled as `Nat`; `StartIndex` is a `uint32`, modelled as a
`Nat` (the byte encoding below reduces it modulo 2^32 exactly as Go's 4-byte
write does). -/
structure Parameters where
  InputHash : Nat
  StartIndex : Nat
  PreRoot : Nat
  PostRoot : Nat
  IdComms : List Nat
  MerkleProofs : List (List Nat)
deriving Repr, DecidableEq

/-- The error values produced by `Parameters.ValidateShape`
(proving_system.go lines 39-52), one constructor per `fmt.Errorf` site,
carrying the data interpolated into the message. -/
inductive ShapeError where
  | wrongIdCommsCount (n : Nat)
  | wrongProofsCount (n : Nat)
  | wrongProofSize (i : Nat) (n : Nat)
deriving Repr, DecidableEq

/-- The `error.Error()` message of each `ShapeError`, mirroring the
`fmt.Errorf` format strings in proving_system.go. -/
def ShapeError.message : ShapeError → String
  | .wrongIdCommsCount n => s!"wrong number of identity commitments: {n}"
  | .wrongProofsCount n => s!"wrong number of merkle proofs: {n}"
  | .wrongProofSize i n => s!"wrong size of merkle proof for proof {i}: {n}"

/-- The `for i, proof := range p.MerkleProofs` loop of `ValidateShape`:
returns the error for the first proof whose length differs from `treeDepth`,
threading the running index `i`. -/
def checkMerkleProofs (treeDepth : Nat) : Nat → List (List Nat) → Option ShapeError
  | _, [] => none
  | i, proof :: rest =>
    if proof.length ≠ treeDepth then some (.wrongProofSize i proof.length)
    else checkMerkleProofs treeDepth (i + 1) rest

/-- `Parameters.ValidateShape` (proving_system.go lines 39-52): `none` means
the Go function returned `nil`, `some e` that it returned the error `e`. -/
def Parameters.ValidateShape (p : Parameters) (treeDepth batchSize : Nat) :
    Option ShapeError :=
  if p.IdComms.length ≠ batchSize then some (.wrongIdCommsCount p.IdComms.length)
  else if p.MerkleProofs.length ≠ batchSize then
    some (.wrongProofsCount p.MerkleProofs.length)
  else checkMerkleProofs treeDepth 0 p.MerkleProofs

/-- Minimal big-endian byte representation of a `Nat`, the embedding of Go's
`big.Int.Bytes()`: no leading zero bytes, and the empty list for zero. The
first argument is recursion fuel (`n` itself suffices since the value shrinks
by a factor of 256 each step); keeping the recursion structural lets the
kernel evaluate the function. -/
def natToBEBytesAux : Nat → Nat → List Nat
  | 0, _ => []
  | _ + 1, 0 => []
  | fuel + 1, n + 1 => natToBEBytesAux fuel ((n + 1) / 256) ++ [(n + 1) % 256]

/-- `big.Int.Bytes()` for a non-negative value: minimal big-endian bytes. -/
def natToBEBytes (n : Nat) : List Nat :=
  natToBEBytesAux n n

/-- The 4 bytes written by `binary.Write(buf, binary.BigEndian, v)` for a
`uint32` value `v`: big-endian, most significant byte first. Reduction modulo
256 of each shifted byte models the fixed 32-bit width. -/
def u32BEBytes (v : Nat) : List Nat :=
  [v / 2 ^ 24 % 256, v / 2 ^ 16 % 256, v / 2 ^ 8 % 256, v % 256]

/-- `binary.Write(buf, binary.BigEndian, p.StartIndex)` into a fresh
`bytes.Buffer`. `binary.Write` fails only when the underlying writer fails or
the value has no fixed size; `bytes.Buffer.Write` is documented to always
return a nil error and `uint32` has fixed size 4, so the embedding always
returns `Except.ok` — the `err != nil` branch of the source is preserved by
the `Except` type but never taken. -/
def binaryWriteBigEndianU32 (v : Nat) : Except String (List Nat) :=
  Except.ok (u32BEBytes v)

/-- The `if len(idBytes) < 32` left-zero-padding step inside
`ComputeInputHash`'s loop over `idComms` (proving_system.go lines 79-81):
pad to 32 bytes when shorter, leave unchanged otherwise (no truncation). -/
def pad32 (idBytes : List Nat) : List Nat :=
  if idBytes.length < 32 then List.replicate (32 - idBytes.length) 0 ++ idBytes
  else idBytes

/-- Big-endian interpretation of a byte string as a `Nat`, the embedding of
`big.Int.SetBytes`. -/
def beBytesToNat (bs : List Nat) : Nat :=
  bs.foldl (fun acc b => acc * 256 + b) 0

/-- `Parameters.ComputeInputHash` (proving_system.go lines 66-87),
parameterised by the external `keccak256.Hash` function. The Go method
mutates the receiver (`p.InputHash.SetBytes(hashBytes)`) and returns an
`error`; the embedding returns the updated `Parameters` inside `Except`.
The Go `for` loop appends each padded `idComms` entry in order, which is the
`map`-then-`flatten` of the padding step. -/
def Parameters.ComputeInputHash (keccak : List Nat → List Nat) (p : Parameters) :
    Except String Parameters := do
  let buf ← binaryWriteBigEndianU32 p.StartIndex
  let data := buf
  let data := data ++ natToBEBytes p.PreRoot
  let data := data ++ natToBEBytes p.PostRoot
  let data := data ++ (p.IdComms.map fun v => pad32 (natToBEBytes v)).flatten
  Except.ok { p with InputHash := beBytesToNat (keccak data) }

/-- The byte string described by the spec's Input Hash Codec section, written
from the spec's words for comparison with the source embedding: 4-byte
big-endian `startIndex`, minimal big-endian `preRoot` and `postRoot`, then
each `idComms` entry left-zero-padded to exactly 32 bytes. -/
def specInputHashData (p : Parameters) : List Nat :=
  u32BEBytes p.StartIndex ++ natToBEBytes p.PreRoot ++ natToBEBytes p.PostRoot
    ++ (p.IdComms.map fun v =>
          List.replicate (32 - (natToBEBytes v).length) 0 ++ natToBEBytes v).flatten

/-- The witness assignment structure `MbuCircuit` (declared in the circuit
file of this repository, outside the files at hand; its field list is fixed
by how `Prove` and `Verify` in proving_system.go construct assignments from
it: `InputHash`, `StartIndex`, `PreRoot`, `PostRoot`, `IdComms`,
`MerkleProofs`). `frontend.Variable` values are modelled as `Nat`, with `0`
for the zero value of an unset variable. -/
structure MbuCircuit where
  InputHash : Nat
  StartIndex : Nat
  PreRoot : Nat
  PostRoot : Nat
  IdComms : List Nat
  MerkleProofs : List (List Nat)
deriving Repr, DecidableEq

/-- `prover.Proof` (proving_system.go lines 27-29): a wrapper around the
opaque `groth16.Proof`, whose type is the parameter `GProof`. -/
structure Proof (GProof : Type) where
  Proof : GProof
deriving Repr, DecidableEq

/-- `prover.ProvingSystem` (proving_system.go lines 31-37). The gnark
artifact types (`groth16.ProvingKey`, `groth16.VerifyingKey`,
`constraint.ConstraintSystem`) are opaque, so they are type parameters. -/
structure ProvingSystem (PK VK CS : Type) where
  TreeDepth : Nat
  BatchSize : Nat
  ProvingKey : PK
  VerifyingKey : VK
  ConstraintSystem : CS

/-- The external gnark backend operations used by `Prove` and `Verify`:
`frontend.NewWitness` (full and with `frontend.PublicOnly()`),
`groth16.Prove` and `groth16.Verify`. `Wit` is the opaque witness type and
`GProof` the opaque proof type; failures are `Except.error` with the Go
error message. -/
structure Backend (Wit PK VK CS GProof : Type) where
  newWitness : MbuCircuit → Except String Wit
  newWitnessPublic : MbuCircuit → Except String Wit
  prove : CS → PK → Wit → Except String GProof
  verify : GProof → VK → Wit → Except String Unit

/-- The error type of `ProvingSystem.Prove`: either the `ValidateShape`
error returned unchanged, or an error message from the backend
(`frontend.NewWitness` or `groth16.Prove`). -/
inductive ProveError where
  | shape (e : ShapeError)
  | backend (msg : String)
deriving Repr, DecidableEq

/-- The witness assignment built by `Prove` (proving_system.go lines
123-141): every field of `params` is copied in; `IdComms` and `MerkleProofs`
are rebuilt entry by entry into fresh slices of length `ps.BatchSize` and
`ps.TreeDepth` (the Go indexed reads `params.IdComms[i]` and
`params.MerkleProofs[i][j]` are in range whenever `ValidateShape` has
passed; out-of-range reads, which would panic in Go, are modelled by the
`getD` default and never reached by `Prove`). -/
def buildAssignment {PK VK CS : Type} (ps : ProvingSystem PK VK CS)
    (params : Parameters) : MbuCircuit :=
  { InputHash := params.InputHash
    StartIndex := params.StartIndex
    PreRoot := params.PreRoot
    PostRoot := params.PostRoot
    IdComms := (List.range ps.BatchSize).map fun i => params.IdComms.getD i 0
    MerkleProofs := (List.range ps.BatchSize).map fun i =>
      (List.range ps.TreeDepth).map fun j =>
        (params.MerkleProofs.getD i []).getD j 0 }

/-- `ProvingSystem.Prove` (proving_system.go lines 119-153): validate the
shape first and return the validation error unchanged on failure; otherwise
build the full witness assignment and delegate to the backend, propagating
its errors. -/
def ProvingSystem.Prove {Wit PK VK CS GProof : Type}
    (B : Backend Wit PK VK CS GProof) (ps : ProvingSystem PK VK CS)
    (params : Parameters) : Except ProveError (Proof GProof) :=
  match params.ValidateShape ps.TreeDepth ps.BatchSize with
  | some e => Except.error (ProveError.shape e)
  | none =>
    match B.newWitness (buildAssignment ps params) with
    | Except.error msg => Except.error (ProveError.backend msg)
    | Except.ok w =>
      match B.prove ps.ConstraintSystem ps.ProvingKey w with
      | Except.error msg => Except.error (ProveError.backend msg)
      | Except.ok pr => Except.ok { Proof := pr }

/-- The public-only assignment built by `Verify` (proving_system.go lines
156-159): only `InputHash` is set; `IdComms` is `make([]frontend.Variable,
ps.BatchSize)` (a slice of `batchSize` zero-value variables) and every other
field keeps its Go zero value. -/
def publicAssignment (inputHash : Nat) (batchSize : Nat) : MbuCircuit :=
  { InputHash := inputHash
    StartIndex := 0
    PreRoot := 0
    PostRoot := 0
    IdComms := List.replicate batchSize 0
    MerkleProofs := [] }

/-- `ProvingSystem.Verify` (proving_system.go lines 155-165): build the
public-only witness from the supplied input hash and delegate to
`groth16.Verify` against the stored verifying key. -/
def ProvingSystem.Verify {Wit PK VK CS GProof : Type}
    (B : Backend Wit PK VK CS GProof) (ps : ProvingSystem PK VK CS)
    (inputHash : Nat) (proof : Proof GProof) : Except String Unit :=
  match B.newWitnessPublic (publicAssignment inputHash ps.BatchSize) with
  | Except.error msg => Except.error msg
  | Except.ok w => B.verify proof.Proof ps.VerifyingKey w

/-! Embedding of `server/server.go`: the `proveHandler.ServeHTTP` request
handler. HTTP methods are strings (`http.MethodPost = "POST"`); request and
response bodies are an opaque byte type `Bytes`. `io.ReadAll(r.Body)`,
`json.Unmarshal` and `json.Marshal` are external effects/collaborators,
passed in as values/functions. -/

/-- The body of an HTTP response written by the handler: nothing (the 405
path writes only a status), the JSON error object
`\x7b"code": code, "message": message\x7d` produced by `Error.send`
(server.go lines 33-50; `json.Marshal` of a `map[string]string` cannot
fail, so the fallback body is unreachable), or raw serialized bytes. -/
inductive ResponseBody (Bytes : Type) where
  | empty
  | errorJson (code : String) (message : String)
  | raw (bytes : Bytes)
deriving Repr, DecidableEq

/-- The observable HTTP response: status code and body. -/
structure Response (Bytes : Type) where
  status : Nat
  body : ResponseBody Bytes
deriving Repr, DecidableEq

/-- `malformedBodyError(err).send(w)` (server.go lines 21-23): status 400,
code `malformed_body`, message = the error's message. -/
def malformedBodyError {Bytes : Type} (msg : String) : Response Bytes :=
  { status := 400, body := ResponseBody.errorJson "malformed_body" msg }

/-- `provingError(err).send(w)` (server.go lines 25-27): status 400, code
`proving_error`. The `err.Error()` message of a `ProveError` is the shape
error's message or the backend message. -/
def provingErrorResponse {Bytes : Type} : ProveError → Response Bytes
  | ProveError.shape e =>
    { status := 400, body := ResponseBody.errorJson "proving_error" e.message }
  | ProveError.backend msg =>
    { status := 400, body := ResponseBody.errorJson "proving_error" msg }

/-- `unexpectedError(err).send(w)` (server.go lines 29-31): status 500, code
`unexpected_error`. -/
def unexpectedErrorResponse {Bytes : Type} (msg : String) : Response Bytes :=
  { status := 500, body := ResponseBody.errorJson "unexpected_error" msg }

/-- `proveHandler.ServeHTTP` (server.go lines 95-124), as a function from
the request method, the body-read effect (`io.ReadAll(r.Body)`), the JSON
codec (`json.Unmarshal` into `Parameters`, `json.Marshal` of the `Proof`)
and the handler's proving system to the response written to `w`. -/
def serveHTTP {Bytes Wit PK VK CS GProof : Type}
    (B : Backend Wit PK VK CS GProof) (ps : ProvingSystem PK VK CS)
    (method : String) (readBody : Except String Bytes)
    (unmarshalParams : Bytes → Except String Parameters)
    (marshalProof : Proof GProof → Except String Bytes) : Response Bytes :=
  if method ≠ "POST" then { status := 405, body := ResponseBody.empty }
  else
    match readBody with
    | Except.error e => malformedBodyError e
    | Except.ok buf =>
      match unmarshalParams buf with
      | Except.error e => malformedBodyError e
      | Except.ok params =>
        match ps.Prove B params with
        | Except.error e => provingErrorResponse e
        | Except.ok proof =>
          match marshalProof proof with
          | Except.error e => unexpectedErrorResponse e
          | Except.ok responseBytes =>
            { status := 200, body := ResponseBody.raw responseBytes }

/-- Modelled from the spec: the gnark backend (witness construction,
`groth16.Prove`, `groth16.Verify`) and the compiled `MbuCircuit` relation are
outside the two source files at hand, so their completeness contract is taken
from the spec: for any assignment satisfying the relation (`rel`, the
"real batch insertion" predicate), witness construction succeeds, proving
with the stored keys succeeds, and the resulting proof verifies against the
public-only witness built from the assignment's input hash. -/
def BackendComplete {Wit PK VK CS GProof : Type}
    (B : Backend Wit PK VK CS GProof) (ps : ProvingSystem PK VK CS)
    (rel : MbuCircuit → Prop) : Prop :=
  ∀ a : MbuCircuit, rel a →
    ∃ w pr wp,
      B.newWitness a = Except.ok w ∧
      B.prove ps.ConstraintSystem ps.ProvingKey w = Except.ok pr ∧
      B.newWitnessPublic (publicAssignment a.InputHash ps.BatchSize) = Except.ok wp ∧
      B.verify pr ps.VerifyingKey wp = Except.ok ()

/-- A concrete backend over trivial artifact types, used to instantiate the
backend-parameterised theorems at concrete inputs. -/
def trivialBackend : Backend MbuCircuit Unit Unit Unit Unit :=
  { newWitness := fun a => Except.ok a
    newWitnessPublic := fun a => Except.ok a
    prove := fun _ _ _ => Except.ok ()
    verify := fun _ _ _ => Except.ok () }

/-- A concrete proving system over trivial artifact types with
`TreeDepth = 0` and `BatchSize = 0`. -/
def trivialSystem : ProvingSystem Unit Unit Unit :=
  { TreeDepth := 0, BatchSize := 0, ProvingKey := (), VerifyingKey := ()
    ConstraintSystem := () }

/-- A relation accepting every assignment, for concrete instantiations. -/
def trivialRel : MbuCircuit → Prop := fun _ => True

/-! Helper lemmas shared by the claim theorems. -/

/-- Unfolding `ComputeInputHash`: the buffer write always succeeds, so the
method returns the parameters with `InputHash` replaced by the big-endian
value of the keccak digest of the encoded data. -/
lemma computeInputHash_eq (keccak : List Nat → List Nat) (p : Parameters) :
    p.ComputeInputHash keccak =
      Except.ok { p with InputHash := beBytesToNat (keccak
        (u32BEBytes p.StartIndex ++ natToBEBytes p.PreRoot ++
          natToBEBytes p.PostRoot ++
          (p.IdComms.map fun v => pad32 (natToBEBytes v)).flatten)) } :=
  rfl

/-- For byte strings of length at most 32, the padding step is exactly
left-zero-padding to 32 bytes. -/
lemma pad32_of_le (bs : List Nat) (h : bs.length ≤ 32) :
    pad32 bs = List.replicate (32 - bs.length) 0 ++ bs := by
  unfold pad32
  by_cases h2 : bs.length < 32
  · rw [if_pos h2]
  · have h3 : bs.length = 32 := Nat.le_antisymm h (Nat.not_lt.mp h2)
    rw [if_neg h2, h3]
    simp

/-- The merkle-proof loop returns `none` exactly when every proof has the
configured length. -/
lemma checkMerkleProofs_none_iff (td : Nat) :
    ∀ (k : Nat) (l : List (List Nat)),
      checkMerkleProofs td k l = none ↔ ∀ pr ∈ l, pr.length = td
  | _, [] => by simp [checkMerkleProofs]
  | k, pr :: rest => by
    by_cases h : pr.length = td
    · simp [checkMerkleProofs, h, checkMerkleProofs_none_iff td (k + 1) rest]
    · simp [checkMerkleProofs, h]

/-- The merkle-proof loop reports the first offending index, offset by the
starting index `k`. -/
lemma checkMerkleProofs_first (td : Nat) :
    ∀ (k i : Nat) (l : List (List Nat)), i < l.length →
      (∀ j, j < i → (l.getD j []).length = td) →
      (l.getD i []).length ≠ td →
      checkMerkleProofs td k l =
        some (ShapeError.wrongProofSize (k + i) (l.getD i []).length)
  | _, _, [], hi, _, _ => by simp at hi
  | k, 0, pr :: rest, _, _, hbad => by
    simp only [List.getD_cons_zero] at hbad ⊢
    simp [checkMerkleProofs, hbad]
  | k, i + 1, pr :: rest, hi, hprev, hbad => by
    have h0 : pr.length = td := by
      have := hprev 0 (Nat.succ_pos i)
      simpa using this
    simp only [List.getD_cons_succ] at hbad ⊢
    rw [checkMerkleProofs, if_neg (by simp [h0])]
    have hrec := checkMerkleProofs_first td (k + 1) i rest
      (by simpa using Nat.lt_of_succ_lt_succ hi)
      (fun j hj => by simpa using hprev (j + 1) (Nat.succ_lt_succ hj)) hbad
    rw [hrec]
    congr 2
    omega

/-- `ValidateShape` succeeds exactly when all three length conditions hold. -/
lemma validateShape_none_iff (p : Parameters) (td bs : Nat) :
    p.ValidateShape td bs = none ↔
      (p.IdComms.length = bs ∧ p.MerkleProofs.length = bs ∧
        ∀ pr ∈ p.MerkleProofs, pr.length = td) := by
  unfold Parameters.ValidateShape
  by_cases h1 : p.IdComms.length = bs
  · by_cases h2 : p.MerkleProofs.length = bs
    · simp [h1, h2, checkMerkleProofs_none_iff]
    · simp [h1, h2]
  · simp [h1]

/-- Reading every position of a list back by index reproduces the list. -/
lemma range_map_getD {α : Type} (d : α) :
    ∀ l : List α, (List.range l.length).map (fun i => l.getD i d) = l
  | [] => rfl
  | a :: l => by
    rw [List.length_cons, List.range_succ_eq_map, List.map_cons, List.map_map]
    have : (List.range l.length).map ((fun i => (a :: l).getD i d) ∘ Nat.succ) =
        (List.range l.length).map (fun i => l.getD i d) := by
      apply List.map_congr_left
      intro i _
      simp
    rw [this, range_map_getD d l]
    simp

/-- C1: for parameters whose `idComms` entries each have a minimal big-endian
encoding of at most 32 bytes, `ComputeInputHash` hashes exactly the
concatenation of the 4-byte big-endian start index, the minimal big-endian
pre- and post-roots, and each commitment left-zero-padded to 32 bytes, and
stores the big-endian value of the digest; a 30-byte commitment contributes
2 zero bytes then its 30 bytes, and an exactly-32-byte one is passed through
unchanged. -/
theorem computeInputHash_matches_spec (keccak : List Nat → List Nat)
    (p : Parameters) (h : ∀ v ∈ p.IdComms, (natToBEBytes v).length ≤ 32) :
    p.ComputeInputHash keccak =
      Except.ok { p with InputHash := beBytesToNat (keccak (specInputHashData p)) } ∧
    (∀ bs : List Nat, bs.length = 30 → pad32 bs = List.replicate 2 0 ++ bs) ∧
    (∀ bs : List Nat, bs.length = 32 → pad32 bs = bs) := by
  refine ⟨?_, ?_, ?_⟩
  · rw [computeInputHash_eq]
    have hdata : (p.IdComms.map fun v => pad32 (natToBEBytes v)) =
        p.IdComms.map fun v =>
          List.replicate (32 - (natToBEBytes v).length) 0 ++ natToBEBytes v :=
      List.map_congr_left fun v hv => pad32_of_le _ (h v hv)
    rw [specInputHashData, hdata]
  · intro bs hb
    rw [pad32, hb]
    norm_num
  · intro bs hb
    rw [pad32, hb]
    norm_num

/-- Witness for C1 at a concrete input: one commitment `4`, whose minimal
encoding is the single byte `[4]`, and the identity as the stand-in hash
function. -/
theorem computeInputHash_matches_spec_witness :
    (∀ v ∈ ([4] : List Nat), (natToBEBytes v).length ≤ 32) ∧
    (Parameters.ComputeInputHash (fun l => l) ⟨0, 1, 2, 3, [4], [[5]]⟩ =
      Except.ok { (⟨0, 1, 2, 3, [4], [[5]]⟩ : Parameters) with
        InputHash := beBytesToNat (specInputHashData ⟨0, 1, 2, 3, [4], [[5]]⟩) } ∧
    (∀ bs : List Nat, bs.length = 30 → pad32 bs = List.replicate 2 0 ++ bs) ∧
    (∀ bs : List Nat, bs.length = 32 → pad32 bs = bs)) :=
  ⟨by decide, computeInputHash_matches_spec (fun l => l) ⟨0, 1, 2, 3, [4], [[5]]⟩
    (by decide)⟩

/-- C3: `ValidateShape` succeeds exactly when `idComms` has `batchSize`
entries, `merkleProofs` has `batchSize` entries and every merkle proof has
`treeDepth` entries; the checks run in that order, the first violated check
determines the error, and the per-proof error names the first offending
index and its observed length. -/
theorem validateShape_spec (p : Parameters) (treeDepth batchSize : Nat) :
    (p.ValidateShape treeDepth batchSize = none ↔
      (p.IdComms.length = batchSize ∧ p.MerkleProofs.length = batchSize ∧
        ∀ pr ∈ p.MerkleProofs, pr.length = treeDepth)) ∧
    (p.IdComms.length ≠ batchSize →
      p.ValidateShape treeDepth batchSize =
        some (ShapeError.wrongIdCommsCount p.IdComms.length)) ∧
    (p.IdComms.length = batchSize → p.MerkleProofs.length ≠ batchSize →
      p.ValidateShape treeDepth batchSize =
        some (ShapeError.wrongProofsCount p.MerkleProofs.length)) ∧
    (∀ i, p.IdComms.length = batchSize → p.MerkleProofs.length = batchSize →
      i < p.MerkleProofs.length →
      (∀ j, j < i → (p.MerkleProofs.getD j []).length = treeDepth) →
      (p.MerkleProofs.getD i []).length ≠ treeDepth →
      p.ValidateShape treeDepth batchSize =
        some (ShapeError.wrongProofSize i (p.MerkleProofs.getD i []).length)) := by
  refine ⟨validateShape_none_iff p treeDepth batchSize, ?_, ?_, ?_⟩
  · intro h1
    simp [Parameters.ValidateShape, h1]
  · intro h1 h2
    simp [Parameters.ValidateShape, h1, h2]
  · intro i h1 h2 hi hprev hbad
    rw [Parameters.ValidateShape, if_neg (by simp [h1]), if_neg (by simp [h2])]
    have := checkMerkleProofs_first treeDepth 0 i p.MerkleProofs hi hprev hbad
    simpa using this

/-- C6: `ComputeInputHash` is deterministic in the fields it encodes: two
parameter bundles agreeing on `StartIndex`, `PreRoot`, `PostRoot` and
`IdComms` (the `InputHash` and `MerkleProofs` fields may differ) receive the
same input hash, for any hash function. -/
theorem computeInputHash_deterministic (keccak : List Nat → List Nat)
    (p1 p2 : Parameters) (h1 : p1.StartIndex = p2.StartIndex)
    (h2 : p1.PreRoot = p2.PreRoot) (h3 : p1.PostRoot = p2.PostRoot)
    (h4 : p1.IdComms = p2.IdComms) :
    Except.map Parameters.InputHash (p1.ComputeInputHash keccak) =
      Except.map Parameters.InputHash (p2.ComputeInputHash keccak) := by
  rw [computeInputHash_eq, computeInputHash_eq]
  simp [Except.map, h1, h2, h3, h4]

/-- Witness for C6: two bundles differing in `InputHash` and `MerkleProofs`
but agreeing on the encoded fields receive the same hash. -/
theorem computeInputHash_deterministic_witness :
    Parameters.StartIndex ⟨0, 1, 2, 3, [4], []⟩ =
      Parameters.StartIndex ⟨9, 1, 2, 3, [4], [[5]]⟩ ∧
    Parameters.PreRoot ⟨0, 1, 2, 3, [4], []⟩ =
      Parameters.PreRoot ⟨9, 1, 2, 3, [4], [[5]]⟩ ∧
    Parameters.PostRoot ⟨0, 1, 2, 3, [4], []⟩ =
      Parameters.PostRoot ⟨9, 1, 2, 3, [4], [[5]]⟩ ∧
    Parameters.IdComms ⟨0, 1, 2, 3, [4], []⟩ =
      Parameters.IdComms ⟨9, 1, 2, 3, [4], [[5]]⟩ ∧
    Except.map Parameters.InputHash
        (Parameters.ComputeInputHash (fun l => l) ⟨0, 1, 2, 3, [4], []⟩) =
      Except.map Parameters.InputHash
        (Parameters.ComputeInputHash (fun l => l) ⟨9, 1, 2, 3, [4], [[5]]⟩) :=
  ⟨rfl, rfl, rfl, rfl,
    computeInputHash_deterministic (fun l => l) ⟨0, 1, 2, 3, [4], []⟩
      ⟨9, 1, 2, 3, [4], [[5]]⟩ rfl rfl rfl rfl⟩

/-- C9: `ComputeInputHash` never fails: its only error branch propagates the
result of `binary.Write` into an in-memory buffer, which always succeeds, so
the method returns `ok` on every input. -/
theorem computeInputHash_never_fails (keccak : List Nat → List Nat)
    (p : Parameters) : ∃ q, p.ComputeInputHash keccak = Except.ok q :=
  ⟨_, computeInputHash_eq keccak p⟩

/-- C10: `ComputeInputHash` writes the digest of the encoded data into the
`InputHash` field and leaves `StartIndex`, `PreRoot`, `PostRoot`, `IdComms`
and `MerkleProofs` unchanged. -/
theorem computeInputHash_frame (keccak : List Nat → List Nat)
    (p : Parameters) :
    ∃ encoded, p.ComputeInputHash keccak =
      Except.ok { InputHash := beBytesToNat (keccak encoded)
                  StartIndex := p.StartIndex, PreRoot := p.PreRoot
                  PostRoot := p.PostRoot, IdComms := p.IdComms
                  MerkleProofs := p.MerkleProofs } :=
  ⟨_, computeInputHash_eq keccak p⟩

/-- C4: `Prove` returns the `ValidateShape` error unchanged whenever the
shape is wrong, for every backend (so no witness construction or backend
call can influence the result); on valid shapes it builds the witness
assignment from all six parameter fields and delegates to the backend,
propagating a backend error from witness construction or proof generation
and wrapping a successful backend proof. -/
theorem prove_spec {Wit PK VK CS GProof : Type}
    (B : Backend Wit PK VK CS GProof) (ps : ProvingSystem PK VK CS)
    (params : Parameters) :
    (∀ e, params.ValidateShape ps.TreeDepth ps.BatchSize = some e →
      ps.Prove B params = Except.error (ProveError.shape e)) ∧
    (params.ValidateShape ps.TreeDepth ps.BatchSize = none →
      buildAssignment ps params =
        { InputHash := params.InputHash, StartIndex := params.StartIndex
          PreRoot := params.PreRoot, PostRoot := params.PostRoot
          IdComms := params.IdComms, MerkleProofs := params.MerkleProofs } ∧
      (∀ msg, B.newWitness (buildAssignment ps params) = Except.error msg →
        ps.Prove B params = Except.error (ProveError.backend msg)) ∧
      (∀ w, B.newWitness (buildAssignment ps params) = Except.ok w →
        (∀ msg, B.prove ps.ConstraintSystem ps.ProvingKey w = Except.error msg →
          ps.Prove B params = Except.error (ProveError.backend msg)) ∧
        (∀ pr, B.prove ps.ConstraintSystem ps.ProvingKey w = Except.ok pr →
          ps.Prove B params = Except.ok { Proof := pr }))) := by
  refine ⟨?_, ?_⟩
  · intro e he
    simp [ProvingSystem.Prove, he]
  · intro hnone
    obtain ⟨h1, h2, h3⟩ := (validateShape_none_iff params ps.TreeDepth ps.BatchSize).mp hnone
    have hIds : (List.range ps.BatchSize).map (fun i => params.IdComms.getD i 0) =
        params.IdComms := by
      rw [← h1]
      exact range_map_getD 0 params.IdComms
    have hMps : ((List.range ps.BatchSize).map fun i =>
        (List.range ps.TreeDepth).map fun j =>
          (params.MerkleProofs.getD i []).getD j 0) = params.MerkleProofs := by
      rw [← h2]
      apply List.ext_getElem
      · simp
      · intro i hi1 hi2
        simp only [List.getElem_map, List.getElem_range]
        rw [List.getD_eq_getElem params.MerkleProofs [] hi2]
        have hlen : params.MerkleProofs[i].length = ps.TreeDepth :=
          h3 _ (List.getElem_mem hi2)
        rw [← hlen]
        exact range_map_getD 0 _
    refine ⟨?_, ?_, ?_⟩
    · unfold buildAssignment
      simp only [MbuCircuit.mk.injEq]
      exact ⟨trivial, trivial, trivial, trivial, hIds, hMps⟩
    · intro msg hw
      simp [ProvingSystem.Prove, hnone, hw]
    · intro w hw
      exact ⟨fun msg hp => by simp [ProvingSystem.Prove, hnone, hw, hp],
        fun pr hp => by simp [ProvingSystem.Prove, hnone, hw, hp]⟩

/-- C5: `Verify` builds a public-only witness in which the only supplied
value is the given input hash — every other assignment field keeps its
default (`IdComms` is a batch-size list of zero-value variables) — and
delegates to the backend verification routine against the stored verifying
key; its result is the same for any two proving systems agreeing on the
verifying key and batch size, and no `Parameters` field enters it. -/
theorem verify_spec {Wit PK VK CS GProof : Type}
    (B : Backend Wit PK VK CS GProof) (ps : ProvingSystem PK VK CS)
    (inputHash : Nat) (proof : Proof GProof) :
    ((publicAssignment inputHash ps.BatchSize).InputHash = inputHash ∧
      (publicAssignment inputHash ps.BatchSize).StartIndex = 0 ∧
      (publicAssignment inputHash ps.BatchSize).PreRoot = 0 ∧
      (publicAssignment inputHash ps.BatchSize).PostRoot = 0 ∧
      (publicAssignment inputHash ps.BatchSize).IdComms =
        List.replicate ps.BatchSize 0 ∧
      (publicAssignment inputHash ps.BatchSize).MerkleProofs = []) ∧
    (∀ w, B.newWitnessPublic (publicAssignment inputHash ps.BatchSize) =
        Except.ok w →
      ps.Verify B inputHash proof = B.verify proof.Proof ps.VerifyingKey w) ∧
    (∀ msg, B.newWitnessPublic (publicAssignment inputHash ps.BatchSize) =
        Except.error msg →
      ps.Verify B inputHash proof = Except.error msg) ∧
    (∀ ps2 : ProvingSystem PK VK CS, ps2.VerifyingKey = ps.VerifyingKey →
      ps2.BatchSize = ps.BatchSize →
      ps2.Verify B inputHash proof = ps.Verify B inputHash proof) := by
  refine ⟨⟨rfl, rfl, rfl, rfl, rfl, rfl⟩, ?_, ?_, ?_⟩
  · intro w hw
    simp [ProvingSystem.Verify, hw]
  · intro msg hw
    simp [ProvingSystem.Verify, hw]
  · intro ps2 hvk hbs
    rw [ProvingSystem.Verify, ProvingSystem.Verify, hvk, hbs]

/-- Witness for C5 at the trivial instantiation. -/
theorem verify_spec_witness :
    ((publicAssignment 7 trivialSystem.BatchSize).InputHash = 7 ∧
      (publicAssignment 7 trivialSystem.BatchSize).StartIndex = 0 ∧
      (publicAssignment 7 trivialSystem.BatchSize).PreRoot = 0 ∧
      (publicAssignment 7 trivialSystem.BatchSize).PostRoot = 0 ∧
      (publicAssignment 7 trivialSystem.BatchSize).IdComms =
        List.replicate trivialSystem.BatchSize 0 ∧
      (publicAssignment 7 trivialSystem.BatchSize).MerkleProofs = []) ∧
    (∀ w, trivialBackend.newWitnessPublic
        (publicAssignment 7 trivialSystem.BatchSize) = Except.ok w →
      ProvingSystem.Verify trivialBackend trivialSystem 7 { Proof := () } =
        trivialBackend.verify () trivialSystem.VerifyingKey w) ∧
    (∀ msg, trivialBackend.newWitnessPublic
        (publicAssignment 7 trivialSystem.BatchSize) = Except.error msg →
      ProvingSystem.Verify trivialBackend trivialSystem 7 { Proof := () } =
        Except.error msg) ∧
    (∀ ps2 : ProvingSystem Unit Unit Unit,
      ps2.VerifyingKey = trivialSystem.VerifyingKey →
      ps2.BatchSize = trivialSystem.BatchSize →
      ProvingSystem.Verify trivialBackend ps2 7 { Proof := () } =
        ProvingSystem.Verify trivialBackend trivialSystem 7 { Proof := () }) :=
  verify_spec trivialBackend trivialSystem 7 { Proof := () }

/-- C2: for a shape-valid parameter bundle that represents a real batch
insertion (its full witness assignment satisfies the relation) and carries
its honestly computed input hash, `Prove` succeeds and `Verify` of the
`ComputeInputHash` result accepts the produced proof, for any backend
satisfying the completeness contract of `BackendComplete`. -/
theorem prove_then_verify {Wit PK VK CS GProof : Type}
    (B : Backend Wit PK VK CS GProof) (ps : ProvingSystem PK VK CS)
    (keccak : List Nat → List Nat) (params : Parameters)
    (rel : MbuCircuit → Prop)
    (hshape : params.ValidateShape ps.TreeDepth ps.BatchSize = none)
    (hreal : rel (buildAssignment ps params))
    (hhash : params.ComputeInputHash keccak = Except.ok params)
    (hcomplete : BackendComplete B ps rel) :
    ∃ q pr, params.ComputeInputHash keccak = Except.ok q ∧
      ps.Prove B params = Except.ok pr ∧
      ps.Verify B q.InputHash pr = Except.ok () := by
  obtain ⟨w, gpr, wp, hw, hp, hwp, hv⟩ := hcomplete _ hreal
  simp only [buildAssignment] at hwp
  refine ⟨params, { Proof := gpr }, hhash, ?_, ?_⟩
  · simp [ProvingSystem.Prove, hshape, hw, hp]
  · simp [ProvingSystem.Verify, hwp, hv]

/-- Witness for C2: the trivial backend, an empty batch and the honest hash
of the empty encoding. -/
theorem prove_then_verify_witness :
    Parameters.ValidateShape ⟨0, 0, 0, 0, [], []⟩ trivialSystem.TreeDepth
      trivialSystem.BatchSize = none ∧
    trivialRel (buildAssignment trivialSystem ⟨0, 0, 0, 0, [], []⟩) ∧
    Parameters.ComputeInputHash (fun _ => []) ⟨0, 0, 0, 0, [], []⟩ =
      Except.ok ⟨0, 0, 0, 0, [], []⟩ ∧
    BackendComplete trivialBackend trivialSystem trivialRel ∧
    (∃ q pr, Parameters.ComputeInputHash (fun _ => []) ⟨0, 0, 0, 0, [], []⟩ =
        Except.ok q ∧
      ProvingSystem.Prove trivialBackend trivialSystem ⟨0, 0, 0, 0, [], []⟩ =
        Except.ok pr ∧
      ProvingSystem.Verify trivialBackend trivialSystem q.InputHash pr =
        Except.ok ()) := by
  have hc : BackendComplete trivialBackend trivialSystem trivialRel :=
    fun a _ =>
      ⟨a, (), publicAssignment a.InputHash trivialSystem.BatchSize,
        rfl, rfl, rfl, rfl⟩
  exact ⟨rfl, trivial, rfl, hc,
    prove_then_verify trivialBackend trivialSystem (fun _ => [])
      ⟨0, 0, 0, 0, [], []⟩ trivialRel rfl trivial rfl hc⟩

/-- C7: for POST requests, a body-read or JSON-decode failure yields status
400 with code `malformed_body`; a `Prove` failure (shape or backend) yields
status 400 with code `proving_error`; a serialization failure of the
successful proof yields status 500 with code `unexpected_error`; otherwise
the response is status 200 with the serialized proof as body. -/
theorem serveHTTP_post_spec {Bytes Wit PK VK CS GProof : Type}
    (B : Backend Wit PK VK CS GProof) (ps : ProvingSystem PK VK CS)
    (readBody : Except String Bytes)
    (unmarshalParams : Bytes → Except String Parameters)
    (marshalProof : Proof GProof → Except String Bytes) :
    (∀ e, readBody = Except.error e →
      serveHTTP B ps "POST" readBody unmarshalParams marshalProof =
        { status := 400, body := ResponseBody.errorJson "malformed_body" e }) ∧
    (∀ buf e, readBody = Except.ok buf → unmarshalParams buf = Except.error e →
      serveHTTP B ps "POST" readBody unmarshalParams marshalProof =
        { status := 400, body := ResponseBody.errorJson "malformed_body" e }) ∧
    (∀ buf params se, readBody = Except.ok buf →
      unmarshalParams buf = Except.ok params →
      ps.Prove B params = Except.error (ProveError.shape se) →
      serveHTTP B ps "POST" readBody unmarshalParams marshalProof =
        { status := 400,
          body := ResponseBody.errorJson "proving_error" se.message }) ∧
    (∀ buf params msg, readBody = Except.ok buf →
      unmarshalParams buf = Except.ok params →
      ps.Prove B params = Except.error (ProveError.backend msg) →
      serveHTTP B ps "POST" readBody unmarshalParams marshalProof =
        { status := 400, body := ResponseBody.errorJson "proving_error" msg }) ∧
    (∀ buf params proof e, readBody = Except.ok buf →
      unmarshalParams buf = Except.ok params →
      ps.Prove B params = Except.ok proof → marshalProof proof = Except.error e →
      serveHTTP B ps "POST" readBody unmarshalParams marshalProof =
        { status := 500,
          body := ResponseBody.errorJson "unexpected_error" e }) ∧
    (∀ buf params proof responseBytes, readBody = Except.ok buf →
      unmarshalParams buf = Except.ok params →
      ps.Prove B params = Except.ok proof →
      marshalProof proof = Except.ok responseBytes →
      serveHTTP B ps "POST" readBody unmarshalParams marshalProof =
        { status := 200, body := ResponseBody.raw responseBytes }) := by
  refine ⟨?_, ?_, ?_, ?_, ?_, ?_⟩
  · intro e hr
    simp [serveHTTP, hr, malformedBodyError]
  · intro buf e hr hu
    simp [serveHTTP, hr, hu, malformedBodyError]
  · intro buf params se hr hu hp
    simp [serveHTTP, hr, hu, hp, provingErrorResponse]
  · intro buf params msg hr hu hp
    simp [serveHTTP, hr, hu, hp, provingErrorResponse]
  · intro buf params proof e hr hu hp hm
    simp [serveHTTP, hr, hu, hp, hm, unexpectedErrorResponse]
  · intro buf params proof responseBytes hr hu hp hm
    simp [serveHTTP, hr, hu, hp, hm]

/-- C8: any non-POST request is answered with status 405 and an empty body,
whatever the body-read effect, the JSON codec and the proving system — so
the body is not read and `Prove` is not invoked. -/
theorem serveHTTP_non_post {Bytes Wit PK VK CS GProof : Type}
    (B : Backend Wit PK VK CS GProof) (ps : ProvingSystem PK VK CS)
    (readBody : Except String Bytes)
    (unmarshalParams : Bytes → Except String Parameters)
    (marshalProof : Proof GProof → Except String Bytes)
    (method : String) (h : method ≠ "POST") :
    serveHTTP B ps method readBody unmarshalParams marshalProof =
      { status := 405, body := ResponseBody.empty } := by
  simp [serveHTTP, h]

/-- Witness for C8 at the method GET. -/
theorem serveHTTP_non_post_witness :
    ("GET" : String) ≠ "POST" ∧
    serveHTTP trivialBackend trivialSystem "GET"
      (Except.ok ([] : List Nat)) (fun _ => Except.ok ⟨0, 0, 0, 0, [], []⟩)
      (fun _ => Except.ok []) =
      { status := 405, body := ResponseBody.empty } :=
  ⟨by decide, serveHTTP_non_post trivialBackend trivialSystem
    (Except.ok ([] : List Nat)) (fun _ => Except.ok ⟨0, 0, 0, 0, [], []⟩)
    (fun _ => Except.ok []) "GET" (by decide)⟩

end Mbu
